import Mathlib

/-!
Verification development for the Kiro-account-manager provisioning engine.

The definitions below are shallow embeddings of the TypeScript source:

* `extractCode`, `htmlToText`            — `src/main/mailService.ts` lines 54-89 and the
                                           identical copy in the AWS auto-register module
                                           (pattern list `CODE_PATTERNS`, exclusion filters).
* `graphMailExtract`, `graphLoop`        — `getOutlookVerificationCode` (auto-register module).
* `mailServiceExtract`, `scanMails`      — `MailService.waitForVerificationCode`.
* `fillPool`, `runConcurrent`            — the bounded worker pool in `AutoRegisterPage.tsx`.
* `classifyFlow`, `loginTrace`           — the flow classifier and login branch of `autoRegisterAWS`.
* `generateSmartFingerprint`             — `src/main/fingerprint.ts`.
* `updateAccountStatus`                  — the zustand store `src/renderer/src/store/autoRegister.ts`.
* `autoRegisterRun`                      — the resource-flow skeleton (temp-mailbox lifecycle)
                                           of `autoRegisterAWS`.

JavaScript strings are modelled as `List Char`; the regular expressions of
`CODE_PATTERNS` are unfolded into direct scanners that reproduce the engine's
left-to-right search, alternation order, greedy character classes and the
`lastIndex` advance of `exec` with the `g` flag.
-/

/-! ## Character classes (JS regex semantics) -/

/-- JS `\s` on the character set this program manipulates: space, tab, newline,
carriage return, vertical tab, form feed and no-break space. -/
def isWsChar (c : Char) : Bool :=
  c = ' ' || c = '\t' || c = '\n' || c = '\r' || c = '\x0b' || c = '\x0c' || c = ' '

/-- JS `\d` is exactly the ASCII digits. -/
def isDigitChar (c : Char) : Bool :=
  '0' ≤ c && c ≤ '9'

/-- JS word character (for `\b`): `[A-Za-z0-9_]`. -/
def isWordChar (c : Char) : Bool :=
  ('a' ≤ c && c ≤ 'z') || ('A' ≤ c && c ≤ 'Z') || isDigitChar c || c = '_'

/-- Character class `[：:\s]` used between a label and the digits in `CODE_PATTERNS`. -/
def isColonWs (c : Char) : Bool :=
  c = '：' || c = ':' || isWsChar c

/-! ## List-of-char utilities -/

/-- Length of the longest run of characters satisfying `p` at the head of `s`. -/
def countWhile (p : Char → Bool) : List Char → Nat
  | [] => 0
  | c :: rest => if p c then countWhile p rest + 1 else 0

/-- Case-insensitive starts-with; `pat` is given in lower case. -/
def ciStarts : List Char → List Char → Bool
  | [], _ => true
  | _ :: _, [] => false
  | p :: ps, c :: cs => p = c.toLower && ciStarts ps cs

/-- Case-sensitive starts-with. -/
def listStarts : List Char → List Char → Bool
  | [], _ => true
  | _ :: _, [] => false
  | p :: ps, c :: cs => p = c && listStarts ps cs

/-- Case-sensitive substring containment (JS `String.prototype.includes`). -/
def containsList (sub : List Char) : List Char → Bool
  | [] => listStarts sub []
  | c :: rest => listStarts sub (c :: rest) || containsList sub rest

/-- Case-insensitive substring containment (for `i`-flagged exclusion regexes);
`sub` is given in lower case. -/
def containsCI (sub : List Char) : List Char → Bool
  | [] => ciStarts sub []
  | c :: rest => ciStarts sub (c :: rest) || containsCI sub rest

/-- Six ASCII digits at the head of `s`; returns the digits. This is `(\d{6})`:
the capture is exactly six characters (a seventh digit may follow). -/
def sixDigits (s : List Char) : Option (List Char) :=
  match s with
  | d1 :: d2 :: d3 :: d4 :: d5 :: d6 :: _ =>
    if isDigitChar d1 && isDigitChar d2 && isDigitChar d3 && isDigitChar d4 &&
       isDigitChar d5 && isDigitChar d6 then
      some [d1, d2, d3, d4, d5, d6]
    else none
  | _ => none

/-- Is there a run of `n` consecutive digits anywhere in `s` (JS `\d{n,}` test)? -/
def hasDigitRun (n : Nat) : List Char → Bool
  | [] => n = 0
  | c :: rest => (countWhile isDigitChar (c :: rest) ≥ n) || hasDigitRun n rest

/-- Slice `[a, b)` of a character list (JS `String.prototype.slice` on Nat bounds). -/
def sliceL (cs : List Char) (a b : Nat) : List Char :=
  (cs.take b).drop a

/-- Index (0-based) of the last `'\n'` in `s`, if any. -/
def lastNewlinePos (s : List Char) : Option Nat :=
  match s with
  | [] => none
  | c :: rest =>
    match lastNewlinePos rest with
    | some j => some (j + 1)
    | none => if c = '\n' then some 0 else none

/-! ## The four `CODE_PATTERNS` matchers

Each matcher inspects one starting position and returns `some (len, code)` when
the pattern matches there, where `len` is the length of the whole match
(`match[0].length`, used for the `lastIndex` advance and the context window)
and `code` is the six-digit capture. -/

/-- Alternative `verification\s*code` of pattern 1 (case-insensitive):
returns the number of characters consumed. -/
def matchVerifLabel (s : List Char) : Option Nat :=
  if ciStarts "verification".data s then
    let r := s.drop 12
    let w := countWhile isWsChar r
    if ciStarts "code".data (r.drop w) then some (12 + w + 4) else none
  else none

/-- The label alternatives of pattern 1, in the source's alternation order:
`verification\s*code | 验证码 | Your code is | code is` (flag `i`). -/
def p1Labels (s : List Char) : List Nat :=
  (match matchVerifLabel s with | some k => [k] | none => []) ++
  (if ciStarts "验证码".data s then [3] else []) ++
  (if ciStarts "your code is".data s then [12] else []) ++
  (if ciStarts "code is".data s then [7] else [])

/-- After a label (or `is`/`为`) of consumed length `k`: `[：:\s]*(\d{6})`.
The class `[：:\s]` is disjoint from `\d`, so the greedy run is unambiguous. -/
def labelDigits (s : List Char) (k : Nat) : Option (Nat × List Char) :=
  let r := s.drop k
  let w := countWhile isColonWs r
  match sixDigits (r.drop w) with
  | some code => some (k + w + 6, code)
  | none => none

/-- Pattern 1 `(?:verification\s*code|验证码|Your code is|code is)[：:\s]*(\d{6})` at a
position: the regex engine tries the alternatives in order and backtracks to the
next alternative when the digits are missing. -/
def matchP1 (s : List Char) : Option (Nat × List Char) :=
  (p1Labels s).firstM (fun k => labelDigits s k)

/-- Pattern 2 `(?:is|为)[：:\s]*(\d{6})\b` at a position. The trailing `\b` holds
when the character after the digits is absent or not a word character. -/
def matchP2 (s : List Char) : Option (Nat × List Char) :=
  let alts : List Nat :=
    (if ciStarts "is".data s then [2] else []) ++
    (if ciStarts "为".data s then [1] else [])
  alts.firstM (fun k =>
    match labelDigits s k with
    | some (len, code) =>
      match (s.drop len).head? with
      | some c => if isWordChar c then none else some (len, code)
      | none => some (len, code)
    | none => none)

/-- Pattern 3 `^\s*(\d{6})\s*$` with flags `gm` at a position, which must be a
line start. `\s*` is greedy; the trailing `$` (multiline) holds at end of input
or before a `'\n'`, so the engine backtracks inside the trailing whitespace run
to the last `'\n'` it contains. -/
def matchP3 (s : List Char) (lineStart : Bool) : Option (Nat × List Char) :=
  if lineStart then
    let w := countWhile isWsChar s
    match sixDigits (s.drop w) with
    | some code =>
      let rest := s.drop (w + 6)
      let w2 := countWhile isWsChar rest
      if (rest.drop w2).isEmpty then some (w + 6 + w2, code)
      else
        match lastNewlinePos (rest.take w2) with
        | some j => some (w + 6 + j, code)
        | none => none
    | none => none
  else none

/-- Pattern 4 `>\s*(\d{6})\s*<` at a position. -/
def matchP4 (s : List Char) : Option (Nat × List Char) :=
  match s with
  | '>' :: r =>
    let w := countWhile isWsChar r
    match sixDigits (r.drop w) with
    | some code =>
      let r2 := r.drop (w + 6)
      let w2 := countWhile isWsChar r2
      if (r2.drop w2).head? = some '<' then some (1 + w + 6 + w2 + 1, code) else none
    | none => none
  | _ => none

/-! ## Exclusion filters of `extractCode` -/

/-- Test of `/color[:\s]*[^;]*\d{6}/i` restricted to the suffix after one
occurrence of `color`: six consecutive digits reachable without crossing a `;`. -/
def digitsBeforeSemicolon : List Char → Bool
  | [] => false
  | c :: rest =>
    (sixDigits (c :: rest)).isSome || (c ≠ ';' && digitsBeforeSemicolon rest)

/-- `/color[:\s]*[^;]*\d{6}/i.test(context)`: some case-insensitive occurrence of
`color` followed, without an intervening `;`, by six consecutive digits.
(`[:\s]*` matches only `;`-free characters, so it merges into `[^;]*`.) -/
def colorTest : List Char → Bool
  | [] => false
  | c :: rest =>
    (ciStarts "color".data (c :: rest) && digitsBeforeSemicolon ((c :: rest).drop 5)) ||
    colorTest rest

/-- The exclusion filters applied to the 20-character context window around a
candidate match: hex color `#` + code, CSS color patterns, and runs of 7+ digits. -/
def excludedCtx (ctx code : List Char) : Bool :=
  containsList ('#' :: code) ctx ||
  colorTest ctx ||
  containsCI "rgb".data ctx || containsCI "hsl".data ctx ||
  hasDigitRun 7 ctx

/-! ## The `exec` loop of `extractCode` -/

/-- One pattern's `while ((match = pattern.exec(text)) !== null)` loop: scan
positions left to right; on a match, check the exclusion filters on the context
`text.slice(max(0, index - 20), min(length, index + match[0].length + 20))`; on
exclusion continue from `lastIndex` (the end of the match), otherwise return the
code. `fuel` bounds the scan (`cs.length + 1` positions suffice). -/
def scanPattern (matcher : List Char → Bool → Option (Nat × List Char))
    (cs : List Char) : Nat → Nat → Option (List Char)
  | 0, _ => none
  | fuel + 1, pos =>
    if pos > cs.length then none
    else
      let lineStart := pos = 0 || sliceL cs (pos - 1) pos = ['\n']
      match matcher (cs.drop pos) lineStart with
      | some (len, code) =>
        let ctx := sliceL cs (pos - 20) (min cs.length (pos + len + 20))
        if excludedCtx ctx code then scanPattern matcher cs fuel (pos + len)
        else some code
      | none => scanPattern matcher cs fuel (pos + 1)

/-- `extractCode` on a character list: try the four `CODE_PATTERNS` in order,
returning the first code that survives the exclusion filters. An empty input
returns `none` (`if (!text) return null`). -/
def extractCodeL (cs : List Char) : Option (List Char) :=
  if cs.isEmpty then none
  else
    match scanPattern (fun s _ => matchP1 s) cs (cs.length + 1) 0 with
    | some c => some c
    | none =>
      match scanPattern (fun s _ => matchP2 s) cs (cs.length + 1) 0 with
      | some c => some c
      | none =>
        match scanPattern (fun s ls => matchP3 s ls) cs (cs.length + 1) 0 with
        | some c => some c
        | none => scanPattern (fun s _ => matchP4 s) cs (cs.length + 1) 0

/-- `extractCode(text)` of `mailService.ts` (and its identical copy in the
auto-register module). -/
def extractCode (s : String) : Option String :=
  (extractCodeL s.data).map (fun l => String.mk l)

/-! ## `htmlToText` (auto-register module, lines 196-228) -/

/-- Replace every occurrence of the non-empty literal `pat` by `rep`, scanning
left to right and continuing after each replacement (JS global `replace` on a
fixed string pattern). `fuel` bounds the scan. -/
def replaceAllL (pat rep : List Char) : Nat → List Char → List Char
  | 0, s => s
  | _ + 1, [] => []
  | fuel + 1, c :: rest =>
    if listStarts pat (c :: rest) && !pat.isEmpty then
      rep ++ replaceAllL pat rep fuel ((c :: rest).drop pat.length)
    else
      c :: replaceAllL pat rep fuel rest

/-- Case-insensitive variant of `replaceAllL`; `pat` is given in lower case. -/
def replaceAllCI (pat : List Char) (rep : List Char) : Nat → List Char → List Char
  | 0, s => s
  | _ + 1, [] => []
  | fuel + 1, c :: rest =>
    if ciStarts pat (c :: rest) && !pat.isEmpty then
      rep ++ replaceAllCI pat rep fuel ((c :: rest).drop pat.length)
    else
      c :: replaceAllCI pat rep fuel rest

/-- Parse a run of decimal digits to a natural number. -/
def digitsToNat : List Char → Nat → Nat
  | [], acc => acc
  | c :: rest, acc => digitsToNat rest (acc * 10 + (c.toNat - '0'.toNat))

/-- Hexadecimal digit value. -/
def hexVal (c : Char) : Nat :=
  if isDigitChar c then c.toNat - '0'.toNat
  else if 'a' ≤ c && c ≤ 'f' then c.toNat - 'a'.toNat + 10
  else if 'A' ≤ c && c ≤ 'F' then c.toNat - 'A'.toNat + 10
  else 0

def isHexDigit (c : Char) : Bool :=
  isDigitChar c || ('a' ≤ c && c ≤ 'f') || ('A' ≤ c && c ≤ 'F')

/-- JS `String.fromCharCode(n)`: the UTF-16 code unit `n mod 2^16`. (A lone
surrogate cannot be represented by `Char`; `Char.ofNat` maps it to `'\0'`.
The mail bodies this engine handles contain no such references.) -/
def fromCharCode (n : Nat) : Char :=
  Char.ofNat (n % 65536)

/-- Decode `&#(\d+);` references (one global pass). -/
def decodeDecRefs : Nat → List Char → List Char
  | 0, s => s
  | _ + 1, [] => []
  | fuel + 1, c :: rest =>
    if c = '&' then
      match rest with
      | '#' :: r2 =>
        let ds := r2.takeWhile isDigitChar
        if ds.isEmpty then c :: decodeDecRefs fuel rest
        else
          match r2.drop ds.length with
          | ';' :: r3 => fromCharCode (digitsToNat ds 0) :: decodeDecRefs fuel r3
          | _ => c :: decodeDecRefs fuel rest
      | _ => c :: decodeDecRefs fuel rest
    else c :: decodeDecRefs fuel rest

/-- Decode `&#x([0-9a-fA-F]+);` references (one global pass; the `x` is lower
case, as in the source regex). -/
def decodeHexRefs : Nat → List Char → List Char
  | 0, s => s
  | _ + 1, [] => []
  | fuel + 1, c :: rest =>
    if c = '&' then
      match rest with
      | '#' :: 'x' :: r2 =>
        let ds := r2.takeWhile isHexDigit
        if ds.isEmpty then c :: decodeHexRefs fuel rest
        else
          match r2.drop ds.length with
          | ';' :: r3 =>
            fromCharCode (ds.foldl (fun acc d => acc * 16 + hexVal d) 0) :: decodeHexRefs fuel r3
          | _ => c :: decodeHexRefs fuel rest
      | _ => c :: decodeHexRefs fuel rest
    else c :: decodeHexRefs fuel rest

/-- Remove `<tag[^>]*>[\s\S]*?</tag>` blocks (non-greedy body), as used for
`style` and `script`. When the opening tag has no `>` or no closing tag
follows, nothing is replaced at that position. -/
def stripTagBlocks (tag : List Char) : Nat → List Char → List Char
  | 0, s => s
  | _ + 1, [] => []
  | fuel + 1, c :: rest =>
    let s := c :: rest
    if ciStarts ('<' :: tag) s then
      let afterOpen := s.drop (tag.length + 1)
      let attrs := afterOpen.takeWhile (fun ch => ch ≠ '>')
      match afterOpen.drop attrs.length with
      | '>' :: body =>
        -- scan the body lazily for the closing tag
        let closing : List Char := '<' :: '/' :: tag ++ ['>']
        let rec findClose : Nat → List Char → Option (List Char)
          | 0, _ => none
          | _ + 1, [] => none
          | f + 1, b :: bs =>
            if ciStarts closing (b :: bs) then some ((b :: bs).drop closing.length)
            else findClose f bs
        match findClose (body.length + 1) body with
        | some after => stripTagBlocks tag fuel after
        | none => c :: stripTagBlocks tag fuel rest
      | _ => c :: stripTagBlocks tag fuel rest
    else c :: stripTagBlocks tag fuel rest

/-- Replace `<br\s*\/?>` (case-insensitive) by `'\n'`. -/
def replaceBr : Nat → List Char → List Char
  | 0, s => s
  | _ + 1, [] => []
  | fuel + 1, c :: rest =>
    let s := c :: rest
    if ciStarts "<br".data s then
      let r := s.drop 3
      let w := countWhile isWsChar r
      match r.drop w with
      | '/' :: '>' :: after => '\n' :: replaceBr fuel after
      | '>' :: after => '\n' :: replaceBr fuel after
      | _ => c :: replaceBr fuel rest
    else c :: replaceBr fuel rest

/-- Replace `<[^>]+>` by a single space (the final tag-removal pass). -/
def stripTags : Nat → List Char → List Char
  | 0, s => s
  | _ + 1, [] => []
  | fuel + 1, c :: rest =>
    if c = '<' then
      let inner := rest.takeWhile (fun ch => ch ≠ '>')
      if inner.isEmpty then c :: stripTags fuel rest
      else
        match rest.drop inner.length with
        | '>' :: after => ' ' :: stripTags fuel after
        | _ => c :: stripTags fuel rest
    else c :: stripTags fuel rest

/-- Collapse `\s+` runs to a single space. -/
def collapseWs : Nat → List Char → List Char
  | 0, s => s
  | _ + 1, [] => []
  | fuel + 1, c :: rest =>
    if isWsChar c then
      ' ' :: collapseWs fuel (rest.drop (countWhile isWsChar rest))
    else c :: collapseWs fuel rest

/-- JS `String.prototype.trim`. -/
def trimL (s : List Char) : List Char :=
  ((s.dropWhile (fun c => isWsChar c)).reverse.dropWhile (fun c => isWsChar c)).reverse

/-- `htmlToText(html)`: entity decoding, removal of `style`/`script` blocks,
`br`/`/p`/`/div` to newlines, tag stripping, whitespace collapsing and trim,
in exactly the source's pass order. -/
def htmlToTextL (s0 : List Char) : List Char :=
  if s0.isEmpty then []
  else
    let f := fun (s : List Char) => s.length + 1
    let s1 := replaceAllL "&nbsp;".data " ".data (f s0) s0
    let s2 := replaceAllL "&amp;".data "&".data (f s1) s1
    let s3 := replaceAllL "&lt;".data "<".data (f s2) s2
    let s4 := replaceAllL "&gt;".data ">".data (f s3) s3
    let s5 := replaceAllL "&quot;".data "\"".data (f s4) s4
    let s6 := replaceAllL "&apos;".data "\x27".data (f s5) s5
    let s7 := decodeDecRefs (f s6) s6
    let s8 := decodeHexRefs (f s7) s7
    let s9 := stripTagBlocks "style".data (f s8) s8
    let s10 := stripTagBlocks "script".data (f s9) s9
    let s11 := replaceBr (f s10) s10
    let s12 := replaceAllCI "</p>".data "\n".data (f s11) s11
    let s13 := replaceAllCI "</div>".data "\n".data (f s12) s12
    let s14 := stripTags (f s13) s13
    let s15 := collapseWs (f s14) s14
    trimL s15

/-- `htmlToText` on strings. -/
def htmlToText (s : String) : String :=
  String.mk (htmlToTextL s.data)

/-! ## Mailbox backends -/

/-- Lower-case a string character-wise (JS `toLowerCase` on the ASCII senders). -/
def lowerL (s : List Char) : List Char :=
  s.map (fun c => c.toLower)

/-- `AWS_SENDERS` of the auto-register module (includes the fuzzy `aws` entry). -/
def awsSendersGraph : List String :=
  ["no-reply@signin.aws", "no-reply@login.awsapps.com", "noreply@amazon.com",
   "account-update@amazon.com", "no-reply@aws.amazon.com", "noreply@aws.amazon.com", "aws"]

/-- `AWS_SENDERS` of `mailService.ts` (no fuzzy entry). -/
def awsSendersMail : List String :=
  ["no-reply@signin.aws", "no-reply@login.awsapps.com", "noreply@amazon.com",
   "account-update@amazon.com", "no-reply@aws.amazon.com", "noreply@aws.amazon.com"]

/-- `AWS_SENDERS.some((s) => fromEmail.includes(s.toLowerCase()))` where
`fromEmail` is already lower-cased. -/
def isAwsSender (senders : List String) (fromAddr : String) : Bool :=
  senders.any (fun s => containsList (lowerL s.data) (lowerL fromAddr.data))

/-- Per-mail extraction of `getOutlookVerificationCode` (lines 374-385): run the
extractor on `htmlToText(body.content)` when that text is non-empty (the JS
truthiness guard `if (bodyText)`), fall back to the raw `body.content`, then to
`bodyPreview`. -/
def graphMailExtract (content preview : String) : Option String :=
  let bodyText := htmlToText content
  let c1 := if bodyText ≠ "" then extractCode bodyText else none
  match c1 with
  | some c => some c
  | none =>
    match extractCode content with
    | some c => some c
    | none => extractCode preview

/-- Per-mail extraction of `MailService.waitForVerificationCode` (lines
257-261): `detail.text || ''` and the `html` field when it is a string are
concatenated with a newline and the extractor runs once on the result. -/
def mailServiceExtract (text html : Option String) : Option String :=
  extractCode (text.getD "" ++ "\n" ++ html.getD "")

/-- One message of the Graph message-list response, as consumed by the poller. -/
structure GraphMail where
  id : String
  fromAddr : String
  content : String
  preview : String
deriving Repr, DecidableEq

/-- Outcome of one iteration of the outer poll loop of
`getOutlookVerificationCode`, as decided by the environment. -/
inductive GraphIter where
  | tokenFail
  | listFail
  | fetchThrow
  | mails (ms : List GraphMail)
deriving Repr

/-- The inner mail scan (lines 363-392): for each mail from an AWS sender whose
id has not been checked yet, record the id and try the extractor chain;
return the first code found together with the updated checked-id list. -/
def scanMails (checked : List String) : List GraphMail → Option String × List String
  | [] => (none, checked)
  | m :: rest =>
    if isAwsSender awsSendersGraph m.fromAddr && !(checked.contains m.id) then
      let checked2 := checked ++ [m.id]
      match graphMailExtract m.content m.preview with
      | some code => (some code, checked2)
      | none => scanMails checked2 rest
    else scanMails checked rest

/-- The outer poll loop of `getOutlookVerificationCode`: runs while the elapsed
time is below the budget `T`. A token-refresh failure across all endpoints
returns `none` at once; a failed mail-list fetch or a thrown fetch error sleeps
one interval `I` and retries; a fetched list is scanned and, with no code found,
the loop also sleeps one interval and retries. The result carries the number of
loop iterations executed, and `fuel` bounds the recursion. -/
def graphLoop (T I : Nat) (env : Nat → GraphIter) :
    Nat → Nat → Nat → List String → Option String × Nat
  | 0, _, iters, _ => (none, iters)
  | fuel + 1, elapsed, iters, checked =>
    if elapsed < T then
      match env iters with
      | GraphIter.tokenFail => (none, iters + 1)
      | GraphIter.listFail => graphLoop T I env fuel (elapsed + I) (iters + 1) checked
      | GraphIter.fetchThrow => graphLoop T I env fuel (elapsed + I) (iters + 1) checked
      | GraphIter.mails ms =>
        match scanMails checked ms with
        | (some code, _) => (some code, iters + 1)
        | (none, checked2) => graphLoop T I env fuel (elapsed + I) (iters + 1) checked2
    else (none, iters)

/-! ## Concurrency orchestrator (`runConcurrent` in `AutoRegisterPage.tsx`) -/

/-- State of the worker-pool loop: the pending queue, the in-flight task ids
and the completed task ids. -/
structure CState where
  queue : List Nat
  running : List Nat
  done : List Nat
deriving Repr, DecidableEq

/-- The fill loop `while (queue.length > 0 && running.length < concurrency)`:
shift tasks off the queue and start them until the pool is full. -/
def fillPool (n : Nat) : List Nat → List Nat → List Nat × List Nat
  | [], running => ([], running)
  | t :: rest, running =>
    if running.length < n then fillPool n rest (running ++ [t])
    else (t :: rest, running)

/-- The `while (queue.length > 0 || running.length > 0)` loop. Each entry of
`stops` is the value of the global stop flag observed at one iteration; each
entry of `picks` chooses which in-flight task `Promise.race` sees complete
(the completion handler splices itself out of `running`). The returned list
records every intermediate state (after the fill and after the completion),
so "at no point" properties can be stated over it. Exhausting either schedule
simply ends the modelled run. -/
def runConcurrent (n : Nat) : List Bool → List Nat → CState → CState × List CState
  | [], _, s => (s, [])
  | _ :: _, [], s => (s, [])
  | stop :: stops, p :: ps, s =>
    if s.queue.isEmpty && s.running.isEmpty then (s, [])
    else if stop then (s, [])
    else
      let fr := fillPool n s.queue s.running
      let s1 : CState := ⟨fr.1, fr.2, s.done⟩
      if fr.2.isEmpty then
        let rest := runConcurrent n stops ps s1
        (rest.1, s1 :: rest.2)
      else
        let i := p % fr.2.length
        let t := fr.2.getD i 0
        let s2 : CState := ⟨fr.1, fr.2.eraseIdx i, s.done ++ [t]⟩
        let rest := runConcurrent n stops ps s2
        (rest.1, s1 :: s2 :: rest.2)

/-! ## Account store (`src/renderer/src/store/autoRegister.ts`) -/

/-- `RegisterAccount.status`. -/
inductive AccountStatus where
  | pending
  | registering
  | gettingCode
  | success
  | exists_
  | failed
deriving Repr, DecidableEq

/-- `RegisterAccount`. -/
structure RegisterAccount where
  id : String
  email : String
  status : AccountStatus
  awsName : Option String
  ssoToken : Option String
  error : Option String
deriving Repr, DecidableEq

/-- `Partial<RegisterAccount>`: an outer `none` means the field is absent from
the update object; for the optional fields the inner `Option` is the stored
value (a field explicitly present with value `undefined` still overrides under
the JS spread). -/
structure AccountUpdates where
  id : Option String
  email : Option String
  status : Option AccountStatus
  awsName : Option (Option String)
  ssoToken : Option (Option String)
  error : Option (Option String)
deriving Repr

/-- The spread `{ ...acc, ...updates }`. -/
def applyUpdates (acc : RegisterAccount) (u : AccountUpdates) : RegisterAccount :=
  { id := u.id.getD acc.id
    email := u.email.getD acc.email
    status := u.status.getD acc.status
    awsName := u.awsName.getD acc.awsName
    ssoToken := u.ssoToken.getD acc.ssoToken
    error := u.error.getD acc.error }

/-- `updateAccountStatus(id, updates)`:
`accounts.map(acc => acc.id === id ? { ...acc, ...updates } : acc)`. -/
def updateAccountStatus (id : String) (u : AccountUpdates)
    (accounts : List RegisterAccount) : List RegisterAccount :=
  accounts.map (fun acc => if acc.id = id then applyUpdates acc u else acc)

/-- The guard at the head of `registerSingleAccount`: a task begins registering
(sets status `registering`) only when the global stop flag is clear and the
account is not already `success` or `exists`. -/
def registerStarts (shouldStop : Bool) (st : AccountStatus) : Bool :=
  if shouldStop then false
  else
    match st with
    | AccountStatus.success => false
    | AccountStatus.exists_ => false
    | _ => true

/-! ## Flow classifier (`autoRegisterAWS`, lines 1164-1243) -/

/-- Winner of the `Promise.race` over the detector waits: one of the seven name
selectors (`register-i`), the login heading, or the login password field. -/
inductive RaceWinner where
  | registerIdx (i : Nat)
  | loginHeading
  | loginPassword
deriving Repr, DecidableEq

/-- Environment observed by the classifier. `race = none` means the race
rejected (no detector resolved within the shared 10s timeout, or the first
settlement was a rejection), which sends control to the `catch` fallback. The
`Except` values model `isVisible()` probes that may themselves reject; the
source applies `.catch(() => false)` to every one of them. -/
structure ClassifierEnv where
  race : Option RaceWinner
  nameVis : List (Except Unit Bool)
  headingVis : Except Unit Bool
  pwVis : Except Unit Bool

/-- `.isVisible().catch(() => false)`. -/
def caughtVis (e : Except Unit Bool) : Bool :=
  match e with
  | Except.ok b => b
  | Except.error _ => false

/-- The classifier: the race result decides directly; on race rejection the
fallback probes the same selectors sequentially (names first, then the login
heading, then the login password field) and defaults to registration. The
result is `ok true` for the login flow and `ok false` for registration; every
probe rejection is caught, and the fallback body is additionally wrapped in a
`try/catch` whose handler also selects registration. -/
def classifyFlow (env : ClassifierEnv) : Except Unit Bool :=
  match env.race with
  | some RaceWinner.loginHeading => Except.ok true
  | some RaceWinner.loginPassword => Except.ok true
  | some (RaceWinner.registerIdx _) => Except.ok false
  | none =>
    let hasName := env.nameVis.any (fun e => caughtVis e)
    if hasName then Except.ok false
    else if caughtVis env.headingVis then Except.ok true
    else if caughtVis env.pwVis then Except.ok true
    else Except.ok false

/-! ## Post-classification branches of `autoRegisterAWS` -/

/-- UI actions attempted by the two branches. The `fill` actions record the
selector family the value is typed into. -/
inductive UIAction where
  | fillLoginPassword
  | clickLoginContinue
  | autoFillLoginCode
  | manualLoginCode
  | clickLoginVerify
  | fillResetPassword
  | fillResetConfirm
  | clickResetContinue
  | fillName
  | clickSignupNext
  | autoFillSignupCode
  | manualSignupCode
  | clickSignupVerify
  | fillSignupPassword
  | fillSignupConfirm
  | clickSignupContinue
deriving Repr, DecidableEq

/-- Outcomes of the awaited steps inside a branch, as decided by the page. -/
structure BranchEnv where
  pwFillOk : Bool
  contOk : Bool
  codeBoxFound : Bool
  autoMail : Bool
  autoCodeOk : Bool
  manualOk : Bool
  verifyOk : Bool
  resetShown : Bool
  resetOk : Bool
  nameFillOk : Bool
  nextOk : Bool

/-- The login branch (lines 1245-1403; `isVerifyFlow` is never set, so the
password sub-step always runs): fill the `Enter password` field, submit, wait
for the code box, enter the code (mail-service or manual), submit it, and
optionally complete the post-verification password-reset sub-step, whose
fields are again `Enter password` / `Re-enter password` — never a name input.
A failed step throws, ending the trace. -/
def loginTrace (env : BranchEnv) : List UIAction :=
  UIAction.fillLoginPassword ::
  (if env.pwFillOk then
    UIAction.clickLoginContinue ::
    (if env.contOk then
      (if env.codeBoxFound then
        (if env.autoMail then
          (if env.autoCodeOk then [UIAction.autoFillLoginCode]
           else [UIAction.manualLoginCode]) -- fallback to manual entry
         else [UIAction.manualLoginCode]) ++
        (if (env.autoMail && env.autoCodeOk) || env.manualOk then
          UIAction.clickLoginVerify ::
          (if env.verifyOk then
            (if env.resetShown then
              UIAction.fillResetPassword ::
              (if env.resetOk then
                [UIAction.fillResetConfirm, UIAction.clickResetContinue]
               else [])
             else [])
           else [])
         else [])
       else [])
     else [])
   else [])

/-- The registration branch (lines 1404-1605): fill the name input, submit,
wait for the code box, enter the code, submit it, then fill the two password
fields and submit. -/
def regTrace (env : BranchEnv) : List UIAction :=
  UIAction.fillName ::
  (if env.nameFillOk then
    UIAction.clickSignupNext ::
    (if env.nextOk then
      (if env.codeBoxFound then
        (if env.autoMail then
          (if env.autoCodeOk then [UIAction.autoFillSignupCode]
           else [UIAction.manualSignupCode])
         else [UIAction.manualSignupCode]) ++
        (if (env.autoMail && env.autoCodeOk) || env.manualOk then
          UIAction.clickSignupVerify ::
          (if env.verifyOk then
            [UIAction.fillSignupPassword, UIAction.fillSignupConfirm,
             UIAction.clickSignupContinue]
           else [])
         else [])
       else [])
     else [])
   else [])

/-- Dispatch on the classifier result (`if (isLoginFlow) { ... } else { ... }`);
an error from the classifier would skip both branches, but `classifyFlow`
never errors. -/
def afterClassify (cenv : ClassifierEnv) (benv : BranchEnv) : List UIAction :=
  match classifyFlow cenv with
  | Except.ok true => loginTrace benv
  | Except.ok false => regTrace benv
  | Except.error _ => []

/-! ## Fingerprint generator (`src/main/fingerprint.ts`) -/

structure BrowserFingerprint where
  userAgent : String
  viewportW : Nat
  viewportH : Nat
  locale : String
  timezone : String
  platform : String
  deviceScaleFactor : Nat
deriving Repr, DecidableEq

/-- `USER_AGENTS`: six Android Chrome and six iOS Safari user agents. -/
def USER_AGENTS : List String :=
  ["Mozilla/5.0 (Linux; Android 13; SM-S918B) AppleWebKit/537.36 (KHTML, like Gecko) Chrome/120.0.0.0 Mobile Safari/537.36",
   "Mozilla/5.0 (Linux; Android 13; Pixel 7) AppleWebKit/537.36 (KHTML, like Gecko) Chrome/121.0.0.0 Mobile Safari/537.36",
   "Mozilla/5.0 (Linux; Android 14; SM-S921B) AppleWebKit/537.36 (KHTML, like Gecko) Chrome/122.0.0.0 Mobile Safari/537.36",
   "Mozilla/5.0 (Linux; Android 13; SM-A536B) AppleWebKit/537.36 (KHTML, like Gecko) Chrome/120.0.0.0 Mobile Safari/537.36",
   "Mozilla/5.0 (Linux; Android 12; SM-G998B) AppleWebKit/537.36 (KHTML, like Gecko) Chrome/121.0.0.0 Mobile Safari/537.36",
   "Mozilla/5.0 (Linux; Android 13; Pixel 6 Pro) AppleWebKit/537.36 (KHTML, like Gecko) Chrome/122.0.0.0 Mobile Safari/537.36",
   "Mozilla/5.0 (iPhone; CPU iPhone OS 17_2 like Mac OS X) AppleWebKit/605.1.15 (KHTML, like Gecko) Version/17.2 Mobile/15E148 Safari/604.1",
   "Mozilla/5.0 (iPhone; CPU iPhone OS 17_1 like Mac OS X) AppleWebKit/605.1.15 (KHTML, like Gecko) Version/17.1 Mobile/15E148 Safari/604.1",
   "Mozilla/5.0 (iPhone; CPU iPhone OS 16_6 like Mac OS X) AppleWebKit/605.1.15 (KHTML, like Gecko) Version/16.6 Mobile/15E148 Safari/604.1",
   "Mozilla/5.0 (iPhone; CPU iPhone OS 17_0 like Mac OS X) AppleWebKit/605.1.15 (KHTML, like Gecko) Version/17.0 Mobile/15E148 Safari/604.1",
   "Mozilla/5.0 (iPad; CPU OS 17_2 like Mac OS X) AppleWebKit/605.1.15 (KHTML, like Gecko) Version/17.2 Mobile/15E148 Safari/604.1",
   "Mozilla/5.0 (iPad; CPU OS 16_6 like Mac OS X) AppleWebKit/605.1.15 (KHTML, like Gecko) Version/16.6 Mobile/15E148 Safari/604.1"]

def VIEWPORTS : List (Nat × Nat) :=
  [(375, 667), (390, 844), (393, 852), (414, 896), (428, 926),
   (360, 640), (412, 915), (384, 854), (360, 780), (768, 1024), (820, 1180)]

def LOCALES : List String :=
  ["en-US", "en-GB", "zh-CN", "zh-TW", "ja-JP", "ko-KR", "de-DE", "fr-FR", "es-ES"]

def TIMEZONES : List String :=
  ["America/New_York", "America/Los_Angeles", "America/Chicago", "Europe/London",
   "Europe/Paris", "Europe/Berlin", "Asia/Shanghai", "Asia/Tokyo", "Asia/Seoul",
   "Australia/Sydney"]

def DEVICE_SCALE_FACTORS : List Nat := [2, 3]

/-- `randomChoice(array)`: `array[Math.floor(Math.random() * array.length)]`;
the random draw is modelled by the index `i`, reduced modulo the pool size. -/
def randomChoice (l : List String) (i : Nat) : String :=
  l.getD (i % l.length) ""

/-- `getPlatformFromUserAgent(userAgent)`. -/
def getPlatformFromUserAgent (userAgent : String) : String :=
  if containsList "iPhone".data userAgent.data then "iPhone"
  else if containsList "iPad".data userAgent.data then "iPad"
  else if containsList "Android".data userAgent.data then "Linux armv8l"
  else "Linux armv8l"

/-- `generateSmartFingerprint()`: pick a user agent, derive the platform from
it, and sample the remaining fields independently. The five indices stand for
the five independent random draws. -/
def generateSmartFingerprint (iUA iVp iLoc iTz iDsf : Nat) : BrowserFingerprint :=
  let userAgent := randomChoice USER_AGENTS iUA
  let vp := VIEWPORTS.getD (iVp % VIEWPORTS.length) (0, 0)
  { userAgent := userAgent
    viewportW := vp.1
    viewportH := vp.2
    locale := randomChoice LOCALES iLoc
    timezone := randomChoice TIMEZONES iTz
    platform := getPlatformFromUserAgent userAgent
    deviceScaleFactor := DEVICE_SCALE_FACTORS.getD (iDsf % DEVICE_SCALE_FACTORS.length) 0 }

/-! ## Temporary-mailbox lifecycle of `autoRegisterAWS` (lines 972-1843)

The run skeleton below tracks exactly the control flow that decides whether the
temporary mailbox is created and how many times `deleteMailbox` is invoked.
Deletion sites in the source: the success path after the SSO device
authorization (lines 1808-1815) and the `catch` handler (lines 1833-1840);
both guard on `mailService && tempMailbox` and wrap the call in its own
`try/catch`, so a deletion failure never changes the run's result (it is only
logged) and each site calls `deleteMailbox` at most once. -/

/-- Environment of one `autoRegisterAWS` run: which awaited operations succeed.
`ssoAuthThrows` models `ssoDeviceAuth` rejecting (which lands in the `catch`
handler); `ssoAuthOk` models it resolving with `success: true` or
`success: false` (the latter is the early `return` at lines 1799-1802). -/
structure AwsRunEnv where
  mailEnabled : Bool
  emailProvided : Bool
  healthOk : Bool
  createOk : Bool
  browserOk : Bool
  ssoTokenOk : Bool
  ssoAuthThrows : Bool
  ssoAuthOk : Bool
deriving Repr, DecidableEq

/-- One run of `autoRegisterAWS`, reduced to its result flag and the number of
`deleteMailbox` calls made on the temporary mailbox.

* The mailbox is created only when the mail service is enabled and no email was
  supplied, and only after `checkHealth` and `createMailbox` succeed.
* A throw anywhere after creation reaches the `catch` handler, which deletes
  the mailbox (once).
* The success path deletes the mailbox (once) after the SSO exchange.
* The structured failure `if (!ssoResult.success) return {success:false,...}`
  returns from inside the `try` without reaching either deletion site. -/
def autoRegisterRun (env : AwsRunEnv) : Bool × Nat :=
  let usesMailService := env.mailEnabled && !env.emailProvided
  if usesMailService && !env.healthOk then (false, 0)
  else if usesMailService && !env.createOk then (false, 0)
  else if !usesMailService && !env.emailProvided then (false, 0)
  else
    let cleanup : Nat := if usesMailService then 1 else 0
    if !env.browserOk then (false, cleanup)
    else if !env.ssoTokenOk then (false, cleanup)
    else if env.ssoAuthThrows then (false, cleanup)
    else if !env.ssoAuthOk then (false, 0)
    else (true, cleanup)

/-- Did the run create a temporary mailbox? -/
def createsTempMailbox (env : AwsRunEnv) : Bool :=
  env.mailEnabled && !env.emailProvided && env.healthOk && env.createOk

/-! # Claim theorems -/

/-- C5: `extractCode("Your verification code is 482913")` returns `"482913"`;
`extractCode("#482913 background")` returns `none`; `extractCode("order number
4829135")` returns `none`. -/
theorem claimC5_extractCode_examples :
    extractCode "Your verification code is 482913" = some "482913" ∧
    extractCode "#482913 background" = none ∧
    extractCode "order number 4829135" = none :=
  ⟨by decide, by decide, by decide⟩

/-- C1 (code bug): a run of `autoRegisterAWS` that creates a temporary mailbox
and then fails because the SSO device-authorization exchange resolves with
`success: false` returns `failed` with zero `deleteMailbox` calls — the early
`return` at lines 1799-1802 bypasses both deletion sites. On the success
terminal outcome and on thrown-error terminal outcomes the mailbox is deleted
exactly once, as the claim states. -/
theorem claimC1_ssoFailure_skips_mailbox_cleanup :
    createsTempMailbox ⟨true, false, true, true, true, true, false, false⟩ = true ∧
    autoRegisterRun ⟨true, false, true, true, true, true, false, false⟩ = (false, 0) ∧
    autoRegisterRun ⟨true, false, true, true, true, true, false, true⟩ = (true, 1) ∧
    autoRegisterRun ⟨true, false, true, true, false, true, false, true⟩ = (false, 1) ∧
    autoRegisterRun ⟨true, false, true, true, true, false, false, true⟩ = (false, 1) :=
  ⟨rfl, rfl, rfl, rfl, rfl⟩

/-- Every user agent drawn by `randomChoice` comes from the pool. -/
theorem randomChoice_mem (l : List String) (i : Nat) (h : 0 < l.length) :
    randomChoice l i ∈ l := by
  unfold randomChoice
  rw [List.getD_eq_getElem?_getD, List.getElem?_eq_getElem (Nat.mod_lt i h)]
  exact List.getElem_mem _

/-- The pool is curated: no iPad user agent mentions iPhone, and no Android
user agent mentions iPhone or iPad. -/
theorem userAgents_platform_cases : ∀ ua ∈ USER_AGENTS,
    (containsList "iPhone".data ua.data = true → getPlatformFromUserAgent ua = "iPhone") ∧
    (containsList "iPad".data ua.data = true → getPlatformFromUserAgent ua = "iPad") ∧
    (containsList "Android".data ua.data = true →
      getPlatformFromUserAgent ua = "Linux armv8l") := by
  decide

/-- C9: for every fingerprint produced by `generateSmartFingerprint`, the
`platform` field agrees with the user-agent family: an iPhone user agent gives
platform `iPhone`, an iPad user agent gives `iPad`, and an Android user agent
gives the Android-like Linux token `Linux armv8l`. -/
theorem claimC9_platform_matches_userAgent (iUA iVp iLoc iTz iDsf : Nat) :
    (containsList "iPhone".data
        (generateSmartFingerprint iUA iVp iLoc iTz iDsf).userAgent.data = true →
      (generateSmartFingerprint iUA iVp iLoc iTz iDsf).platform = "iPhone") ∧
    (containsList "iPad".data
        (generateSmartFingerprint iUA iVp iLoc iTz iDsf).userAgent.data = true →
      (generateSmartFingerprint iUA iVp iLoc iTz iDsf).platform = "iPad") ∧
    (containsList "Android".data
        (generateSmartFingerprint iUA iVp iLoc iTz iDsf).userAgent.data = true →
      (generateSmartFingerprint iUA iVp iLoc iTz iDsf).platform = "Linux armv8l") := by
  have hmem : randomChoice USER_AGENTS iUA ∈ USER_AGENTS :=
    randomChoice_mem USER_AGENTS iUA (by decide)
  have h := userAgents_platform_cases (randomChoice USER_AGENTS iUA) hmem
  simpa [generateSmartFingerprint] using h

/-- C9 witness: the 7th pool entry is an iPhone user agent, and the generated
fingerprint's platform is `iPhone`. -/
theorem claimC9_witness :
    containsList "iPhone".data (generateSmartFingerprint 6 0 0 0 0).userAgent.data = true ∧
    (generateSmartFingerprint 6 0 0 0 0).platform = "iPhone" :=
  ⟨by decide, (claimC9_platform_matches_userAgent 6 0 0 0 0).1 (by decide)⟩

/-- C10: `updateAccountStatus(id, updates)` rewrites, position by position,
exactly the accounts whose `id` matches, applying the spread of `updates`;
the length is preserved (hence so is the order), and when no account carries
the id the list is unchanged. -/
theorem claimC10_updateAccountStatus_frame (id : String) (u : AccountUpdates)
    (accounts : List RegisterAccount) :
    (updateAccountStatus id u accounts).length = accounts.length ∧
    (∀ i : Nat, (updateAccountStatus id u accounts).get? i =
      (accounts.get? i).map
        (fun acc => if acc.id = id then applyUpdates acc u else acc)) ∧
    ((∀ a ∈ accounts, a.id ≠ id) → updateAccountStatus id u accounts = accounts) := by
  refine ⟨by simp [updateAccountStatus], ?_, ?_⟩
  · intro i
    simp [updateAccountStatus, List.get?_map]
  · intro h
    unfold updateAccountStatus
    have : accounts.map (fun acc => if acc.id = id then applyUpdates acc u else acc) =
        accounts.map (fun acc => acc) := by
      apply List.map_congr_left
      intro a ha
      simp [h a ha]
    simp [this]

/-- C10 witness: updating a missing id leaves a concrete two-account list
unchanged. -/
theorem claimC10_witness :
    (∀ a ∈ [RegisterAccount.mk "a1" "x@y.z" AccountStatus.pending none none none,
            RegisterAccount.mk "a2" "u@v.w" AccountStatus.failed none none none],
        a.id ≠ "zz") ∧
    updateAccountStatus "zz" ⟨none, none, some AccountStatus.registering, none, none, none⟩
      [RegisterAccount.mk "a1" "x@y.z" AccountStatus.pending none none none,
       RegisterAccount.mk "a2" "u@v.w" AccountStatus.failed none none none] =
      [RegisterAccount.mk "a1" "x@y.z" AccountStatus.pending none none none,
       RegisterAccount.mk "a2" "u@v.w" AccountStatus.failed none none none] :=
  ⟨by decide,
   (claimC10_updateAccountStatus_frame "zz"
      ⟨none, none, some AccountStatus.registering, none, none, none⟩ _).2.2 (by decide)⟩

/-- C7: the classifier never surfaces an error — every probe is individually
caught and the sequential fallback is wrapped in its own `try/catch` — and when
the race rejects and no selector is visible in the sequential probe, the flow
is classified as registration (`ok false`). -/
theorem claimC7_classifier_fallback (env : ClassifierEnv) :
    (classifyFlow env).isOk = true ∧
    (env.race = none →
      (∀ e ∈ env.nameVis, caughtVis e = false) →
      caughtVis env.headingVis = false →
      caughtVis env.pwVis = false →
      classifyFlow env = Except.ok false) := by
  constructor
  · unfold classifyFlow
    match h : env.race with
    | some RaceWinner.loginHeading => rfl
    | some RaceWinner.loginPassword => rfl
    | some (RaceWinner.registerIdx _) => rfl
    | none =>
      simp only
      split <;> try rfl
      split <;> try rfl
      split <;> rfl
  · intro hrace hnames hh hp
    unfold classifyFlow
    rw [hrace]
    have hname : env.nameVis.any (fun e => caughtVis e) = false := by
      rw [List.any_eq_false]
      intro x hx
      simp [hnames x hx]
    simp [hname, hh, hp]

/-- C7 witness: with a rejected race, one rejected and one invisible name
probe, an invisible heading and a rejected password probe, classification is
registration and no error escapes. -/
theorem claimC7_witness :
    (classifyFlow ⟨none, [Except.error (), Except.ok false], Except.ok false,
        Except.error ()⟩).isOk = true ∧
    classifyFlow ⟨none, [Except.error (), Except.ok false], Except.ok false,
        Except.error ()⟩ = Except.ok false :=
  ⟨(claimC7_classifier_fallback _).1,
   (claimC7_classifier_fallback
      ⟨none, [Except.error (), Except.ok false], Except.ok false, Except.error ()⟩).2
      rfl (by decide) rfl rfl⟩

/-- C6: whenever the classifier's race detects the login heading or the login
password field, the run takes the login branch: the `Enter password` login
field is the first thing filled, its submit follows when the fill succeeds,
and no full-name input is ever filled in that branch, whatever the remaining
step outcomes are. -/
theorem claimC6_login_branch (cenv : ClassifierEnv) (benv : BranchEnv) :
    (cenv.race = some RaceWinner.loginHeading ∨
     cenv.race = some RaceWinner.loginPassword) →
    classifyFlow cenv = Except.ok true ∧
    UIAction.fillLoginPassword ∈ afterClassify cenv benv ∧
    UIAction.fillName ∉ afterClassify cenv benv ∧
    (benv.pwFillOk = true → UIAction.clickLoginContinue ∈ afterClassify cenv benv) := by
  intro h
  have hc : classifyFlow cenv = Except.ok true := by
    rcases h with h | h <;> simp [classifyFlow, h]
  have ha : afterClassify cenv benv = loginTrace benv := by
    simp [afterClassify, hc]
  refine ⟨hc, ?_, ?_, ?_⟩
  · rw [ha]
    exact List.mem_cons_self _ _
  · rw [ha]
    rcases benv with ⟨pw, co, cb, am, ac, mo, vo, rs, ro, nf, no⟩
    cases pw <;> cases co <;> cases cb <;> cases am <;> cases ac <;> cases mo <;>
      cases vo <;> cases rs <;> cases ro <;> cases nf <;> cases no <;> decide
  · intro hpw
    rw [ha]
    unfold loginTrace
    rw [hpw]
    simp

/-- C6 witness: with the race detecting the login heading and all login steps
succeeding, the trace submits the login password and contains no name fill. -/
theorem claimC6_witness :
    classifyFlow ⟨some RaceWinner.loginHeading, [], Except.ok false, Except.ok false⟩ =
      Except.ok true ∧
    UIAction.fillLoginPassword ∈ afterClassify
      ⟨some RaceWinner.loginHeading, [], Except.ok false, Except.ok false⟩
      ⟨true, true, true, false, false, true, true, false, false, true, true⟩ ∧
    UIAction.fillName ∉ afterClassify
      ⟨some RaceWinner.loginHeading, [], Except.ok false, Except.ok false⟩
      ⟨true, true, true, false, false, true, true, false, false, true, true⟩ ∧
    UIAction.clickLoginContinue ∈ afterClassify
      ⟨some RaceWinner.loginHeading, [], Except.ok false, Except.ok false⟩
      ⟨true, true, true, false, false, true, true, false, false, true, true⟩ := by
  have h := claimC6_login_branch
    ⟨some RaceWinner.loginHeading, [], Except.ok false, Except.ok false⟩
    ⟨true, true, true, false, false, true, true, false, false, true, true⟩
    (Or.inl rfl)
  exact ⟨h.1, h.2.1, h.2.2.1, h.2.2.2 rfl⟩

/-- The extractor finds nothing in the empty string. -/
theorem extractCode_empty : extractCode "" = none := rfl

/-- C4 counterexample: a mail whose only `html` payload is
`"Your code is&nbsp;482913"` (code recoverable only after markup/entity
stripping) and whose plain-text part is absent. The Graph backend extracts
`482913` because it runs the extractor on `htmlToText` of the body, but
`MailService.waitForVerificationCode` — which runs the extractor once on
`text + "\n" + html` and never strips markup — finds nothing. So the
disposable-mailbox backend does not run the extractor against a
markup-stripped plain-text version of the body. -/
theorem claimC4_counterexample :
    htmlToText "Your code is&nbsp;482913" = "Your code is 482913" ∧
    graphMailExtract "Your code is&nbsp;482913" "" = some "482913" ∧
    mailServiceExtract none (some "Your code is&nbsp;482913") = none :=
  ⟨by decide, by decide, by decide⟩

/-- C4 (amended): the Graph-refresh backend runs the extractor against the
markup-stripped plain-text version of the body first, then against the raw
structural-markup body, then against the preview — a code present in any of
the three is found, and a code in the stripped version takes priority. The
disposable-mailbox backend instead runs the extractor exactly once, on the
concatenation of the mail's own plain-text part and its raw markup body, with
no markup-stripped pass. -/
theorem claimC4_amended (content preview : String) (t h : Option String) :
    (graphMailExtract content preview = none ↔
      extractCode (htmlToText content) = none ∧ extractCode content = none ∧
      extractCode preview = none) ∧
    (∀ code, extractCode (htmlToText content) = some code →
      graphMailExtract content preview = some code) ∧
    mailServiceExtract t h = extractCode (t.getD "" ++ "\n" ++ h.getD "") := by
  refine ⟨?_, ?_, rfl⟩
  · unfold graphMailExtract
    by_cases hb : htmlToText content = ""
    · rw [hb]
      simp only [ne_eq, not_true_eq_false, if_false, extractCode_empty]
      cases hc : extractCode content <;> cases hp : extractCode preview <;> simp
    · simp only [ne_eq, hb, not_false_eq_true, if_true]
      cases h1 : extractCode (htmlToText content) <;> cases hc : extractCode content <;>
        cases hp : extractCode preview <;> simp
  · intro code hcode
    have hb : htmlToText content ≠ "" := by
      intro hempty
      rw [hempty, extractCode_empty] at hcode
      exact Option.noConfusion hcode
    unfold graphMailExtract
    simp only [ne_eq, hb, not_false_eq_true, if_true, hcode]

/-- C4 amended-claim witness: applying the priority clause at the
counterexample mail. -/
theorem claimC4_amended_witness :
    extractCode (htmlToText "Your code is&nbsp;482913") = some "482913" ∧
    graphMailExtract "Your code is&nbsp;482913" "" = some "482913" :=
  ⟨by decide,
   (claimC4_amended "Your code is&nbsp;482913" "" none none).2.1 "482913" (by decide)⟩

/-- Under an all-`listFail` environment the poll loop sleeps one interval per
iteration until the wait budget `T` is exhausted, performing exactly
`⌈(T - elapsed) / I⌉` further iterations. -/
theorem graphLoop_listFail_count (T I : Nat) (env : Nat → GraphIter)
    (henv : ∀ j, env j = GraphIter.listFail) (hI : 0 < I) :
    ∀ fuel elapsed iters checked, T ≤ elapsed + fuel * I →
      graphLoop T I env fuel elapsed iters checked =
        (none, iters + (T - elapsed + I - 1) / I) := by
  intro fuel
  induction fuel with
  | zero =>
    intro elapsed iters checked hbudget
    simp only [Nat.zero_mul, Nat.add_zero] at hbudget
    have hdiv : (T - elapsed + I - 1) / I = 0 := by
      have hz : T - elapsed = 0 := Nat.sub_eq_zero_of_le hbudget
      rw [hz]
      exact Nat.div_eq_of_lt (by omega)
    simp [graphLoop, hdiv]
  | succ fuel ih =>
    intro elapsed iters checked hbudget
    have hexp : elapsed + (fuel + 1) * I = elapsed + I + fuel * I := by ring
    by_cases hel : elapsed < T
    · have hrec := ih (elapsed + I) (iters + 1) checked (by omega)
      rw [show graphLoop T I env (fuel + 1) elapsed iters checked =
            graphLoop T I env fuel (elapsed + I) (iters + 1) checked by
          simp [graphLoop, hel, henv iters]]
      rw [hrec]
      have harith : iters + 1 + (T - (elapsed + I) + I - 1) / I =
          iters + (T - elapsed + I - 1) / I := by
        have hD : 1 ≤ T - elapsed := by omega
        have h1 : T - elapsed + I - 1 = (T - elapsed - 1) + I := by omega
        rw [h1, Nat.add_div_right _ hI]
        by_cases hDI : T - elapsed ≤ I
        · have h2 : T - (elapsed + I) = 0 := by omega
          have h3 : (T - elapsed - 1) / I = 0 := Nat.div_eq_of_lt (by omega)
          have h4 : (0 + I - 1) / I = 0 := Nat.div_eq_of_lt (by omega)
          rw [h2, h3, h4]
        · have h2 : T - (elapsed + I) + I - 1 = T - elapsed - 1 := by omega
          rw [h2]
          omega
      rw [harith]
    · have hdiv : (T - elapsed + I - 1) / I = 0 := by
        have hz : T - elapsed = 0 := by omega
        rw [hz]
        exact Nat.div_eq_of_lt (by omega)
      simp [graphLoop, hel, hdiv]

/-- C8: in `getOutlookVerificationCode`, a token-refresh failure across all
endpoints ends the attempt cycle at once with `null` — one iteration, with no
dependence on the remaining fuel or time budget — whereas a failed mail-list
fetch or a thrown fetch error sleeps one poll interval and re-enters the loop,
bounded only by the overall wait budget: an environment that always fails the
list fetch keeps retrying for exactly `⌈T / I⌉` iterations before the `null`
timeout. -/
theorem claimC8_token_fatal_transient_retry (T I : Nat) (env : Nat → GraphIter)
    (fuel elapsed iters : Nat) (checked : List String) :
    (elapsed < T → env iters = GraphIter.tokenFail →
      graphLoop T I env (fuel + 1) elapsed iters checked = (none, iters + 1)) ∧
    (elapsed < T → env iters = GraphIter.listFail →
      graphLoop T I env (fuel + 1) elapsed iters checked =
        graphLoop T I env fuel (elapsed + I) (iters + 1) checked) ∧
    (elapsed < T → env iters = GraphIter.fetchThrow →
      graphLoop T I env (fuel + 1) elapsed iters checked =
        graphLoop T I env fuel (elapsed + I) (iters + 1) checked) ∧
    (¬ elapsed < T → graphLoop T I env fuel elapsed iters checked = (none, iters)) ∧
    ((∀ j, env j = GraphIter.listFail) → 0 < I → T ≤ fuel * I →
      graphLoop T I env fuel 0 0 [] = (none, (T + I - 1) / I)) := by
  refine ⟨?_, ?_, ?_, ?_, ?_⟩
  · intro hel htok
    simp [graphLoop, hel, htok]
  · intro hel hlist
    simp [graphLoop, hel, hlist]
  · intro hel hthrow
    simp [graphLoop, hel, hthrow]
  · intro hel
    cases fuel <;> simp [graphLoop, hel]
  · intro henv hI hbudget
    have h := graphLoop_listFail_count T I env henv hI fuel 0 0 [] (by omega)
    simpa using h

/-- C8 witness: with budget 12 and interval 5, a first-iteration token failure
returns after one iteration, while an always-failing list fetch retries for
`⌈12/5⌉ = 3` iterations before timing out. -/
theorem claimC8_witness :
    graphLoop 12 5 (fun _ => GraphIter.tokenFail) 4 0 0 [] = (none, 1) ∧
    graphLoop 12 5 (fun _ => GraphIter.listFail) 4 0 0 [] = (none, 3) := by
  constructor
  · exact (claimC8_token_fatal_transient_retry 12 5 (fun _ => GraphIter.tokenFail)
      3 0 0 []).1 (by decide) rfl
  · have h := (claimC8_token_fatal_transient_retry 12 5 (fun _ => GraphIter.listFail)
      4 0 0 []).2.2.2.2 (fun _ => rfl) (by decide) (by decide)
    simpa using h

/-- Observing a set stop flag at the head of the schedule ends the loop with
the state untouched: no fill, no new start, no completion is recorded. -/
theorem runConcurrent_stop_now (n : Nat) (stops : List Bool) (picks : List Nat)
    (s : CState) :
    runConcurrent n (true :: stops) picks s = (s, []) := by
  cases picks with
  | nil => rfl
  | cons p ps =>
    simp [runConcurrent]

/-- C3: once the cooperative stop flag is set, no queued task starts. The
`registerSingleAccount` guard refuses to move any account to `registering`
while the flag is set, and a worker-pool run whose stop flag reads `true` at
some iteration is identical — same final state, same recorded intermediate
states — to the run whose schedule simply ends at that iteration: nothing is
started afterwards, and the tasks already in flight stay in `running`
untouched (the loop `break` does not cancel them). -/
theorem claimC3_stop_suppresses_new_starts :
    (∀ st : AccountStatus, registerStarts true st = false) ∧
    (∀ (n : Nat) (stops1 stops2 : List Bool) (picks : List Nat) (s : CState),
      runConcurrent n (stops1 ++ true :: stops2) picks s =
        runConcurrent n stops1 picks s) := by
  constructor
  · intro st
    cases st <;> rfl
  · intro n stops1
    induction stops1 with
    | nil =>
      intro stops2 picks s
      rw [List.nil_append, runConcurrent_stop_now]
      cases picks <;> rfl
    | cons b rest ih =>
      intro stops2 picks s
      cases picks with
      | nil => rfl
      | cons p ps =>
        rw [List.cons_append]
        show runConcurrent n (b :: (rest ++ true :: stops2)) (p :: ps) s =
          runConcurrent n (b :: rest) (p :: ps) s
        simp only [runConcurrent]
        rw [ih, ih]

/-- The fill loop conserves tasks: pending plus in-flight counts are unchanged. -/
theorem fillPool_len_sum (n : Nat) :
    ∀ (q r : List Nat), (fillPool n q r).1.length + (fillPool n q r).2.length =
      q.length + r.length := by
  intro q
  induction q with
  | nil => intro r; simp [fillPool]
  | cons t rest ih =>
    intro r
    by_cases h : r.length < n
    · simp only [fillPool, if_pos h]
      rw [ih (r ++ [t])]
      simp
      omega
    · simp [fillPool, if_neg h]

/-- The fill loop never overfills the pool: if at most `n` tasks are in flight
before the fill, at most `n` are in flight after it. -/
theorem fillPool_bound (n : Nat) :
    ∀ (q r : List Nat), r.length ≤ n → (fillPool n q r).2.length ≤ n := by
  intro q
  induction q with
  | nil => intro r h; simpa [fillPool] using h
  | cons t rest ih =>
    intro r h
    by_cases hlt : r.length < n
    · simp only [fillPool, if_pos hlt]
      exact ih (r ++ [t]) (by simp; omega)
    · simpa [fillPool, if_neg hlt] using h

/-- When work remains and the concurrency limit is positive, the fill loop
leaves at least one task in flight. -/
theorem fillPool_ne_nil (n : Nat) (hn : 1 ≤ n) :
    ∀ (q r : List Nat), ¬(q = [] ∧ r = []) → (fillPool n q r).2 ≠ [] := by
  intro q
  induction q with
  | nil =>
    intro r h
    simp only [fillPool]
    intro hr
    exact h ⟨rfl, hr⟩
  | cons t rest ih =>
    intro r h
    by_cases hlt : r.length < n
    · simp only [fillPool, if_pos hlt]
      exact ih (r ++ [t]) (by simp)
    · simp only [fillPool, if_neg hlt]
      intro hr
      rw [hr] at hlt
      simp at hlt
      omega

/-- The fill loop permutes the tasks: the pending and in-flight lists after a
fill carry the same tasks as before. -/
theorem fillPool_perm (n : Nat) :
    ∀ (q r : List Nat), ((fillPool n q r).1 ++ (fillPool n q r).2).Perm (q ++ r) := by
  intro q
  induction q with
  | nil => intro r; simp [fillPool]
  | cons t rest ih =>
    intro r
    by_cases hlt : r.length < n
    · simp only [fillPool, if_pos hlt]
      have h1 := ih (r ++ [t])
      have h2 : (rest ++ (r ++ [t])).Perm (t :: (rest ++ r)) := by
        rw [← List.append_assoc]
        exact List.perm_append_singleton t (rest ++ r)
      exact h1.trans h2
    · simp [fillPool, if_neg hlt]

/-- Removing the completed task at index `i` and listing it separately is a
permutation of the in-flight list. -/
theorem perm_getD_eraseIdx :
    ∀ (l : List Nat) (i : Nat), i < l.length → l.Perm (l.getD i 0 :: l.eraseIdx i) := by
  intro l
  induction l with
  | nil => intro i h; simp at h
  | cons a rest ih =>
    intro i h
    cases i with
    | zero => simp [List.eraseIdx]
    | succ j =>
      simp only [List.length_cons, Nat.succ_lt_succ_iff] at h
      have hrec := ih j h
      exact (hrec.cons a).trans (List.Perm.swap _ _ _)

/-- Removing one element never lengthens a list. -/
theorem length_eraseIdx_le (l : List Nat) (i : Nat) :
    (l.eraseIdx i).length ≤ l.length := by
  rw [List.length_eraseIdx]
  split <;> omega

/-- Pool-bound invariant: starting from a state with at most `n` tasks in
flight, every intermediate state of the worker-pool loop — recorded both just
after the fill (the in-flight peak) and just after a completion — has at most
`n` tasks in flight. -/
theorem runConcurrent_trace_bound (n : Nat) :
    ∀ (stops : List Bool) (picks : List Nat) (s : CState), s.running.length ≤ n →
      ∀ s2 ∈ (runConcurrent n stops picks s).2, s2.running.length ≤ n := by
  intro stops
  induction stops with
  | nil =>
    intro picks s h s2 hs2
    simp [runConcurrent] at hs2
  | cons b rest ih =>
    intro picks s h s2 hs2
    cases picks with
    | nil => simp [runConcurrent] at hs2
    | cons p ps =>
      simp only [runConcurrent] at hs2
      split at hs2
      · simp at hs2
      · split at hs2
        · simp at hs2
        · have hb : (fillPool n s.queue s.running).2.length ≤ n :=
            fillPool_bound n s.queue s.running h
          split at hs2
          · rcases List.mem_cons.mp hs2 with h1 | h1
            · rw [h1]
              exact hb
            · exact ih ps _ hb s2 h1
          · rcases List.mem_cons.mp hs2 with h1 | h1
            · rw [h1]
              exact hb
            · rcases List.mem_cons.mp h1 with h2 | h2
              · rw [h2]
                exact le_trans (length_eraseIdx_le _ _) hb
              · exact ih ps _ (le_trans (length_eraseIdx_le _ _) hb) s2 h2

/-- Task conservation: the multiset of tasks (pending, in flight, done) is
invariant across the worker-pool loop. -/
theorem runConcurrent_perm (n : Nat) :
    ∀ (stops : List Bool) (picks : List Nat) (s : CState),
      ((runConcurrent n stops picks s).1.queue ++
       (runConcurrent n stops picks s).1.running ++
       (runConcurrent n stops picks s).1.done).Perm
        (s.queue ++ s.running ++ s.done) := by
  intro stops
  induction stops with
  | nil => intro picks s; simp [runConcurrent]
  | cons b rest ih =>
    intro picks s
    cases picks with
    | nil => simp [runConcurrent]
    | cons p ps =>
      simp only [runConcurrent]
      split
      · simp
      · split
        · simp
        · have hfill : (((fillPool n s.queue s.running).1 ++
              (fillPool n s.queue s.running).2) ++ s.done).Perm
              ((s.queue ++ s.running) ++ s.done) :=
            (fillPool_perm n s.queue s.running).append_right s.done
          split
          · rename_i hempty
            have h1 := ih ps ⟨(fillPool n s.queue s.running).1,
              (fillPool n s.queue s.running).2, s.done⟩
            refine h1.trans ?_
            simpa [List.append_assoc] using hfill
          · rename_i hempty
            have hlen : p % (fillPool n s.queue s.running).2.length <
                (fillPool n s.queue s.running).2.length := by
              apply Nat.mod_lt
              cases hf : (fillPool n s.queue s.running).2 with
              | nil => rw [hf] at hempty; simp at hempty
              | cons x xs => simp
            have h1 := ih ps ⟨(fillPool n s.queue s.running).1,
              (fillPool n s.queue s.running).2.eraseIdx
                (p % (fillPool n s.queue s.running).2.length),
              s.done ++ [(fillPool n s.queue s.running).2.getD
                (p % (fillPool n s.queue s.running).2.length) 0]⟩
            refine h1.trans ?_
            have herase := perm_getD_eraseIdx (fillPool n s.queue s.running).2
              (p % (fillPool n s.queue s.running).2.length) hlen
            -- q1 ++ erase ++ (done ++ [t])  ~  q1 ++ fill2 ++ done
            have hstep : ((fillPool n s.queue s.running).1 ++
                (fillPool n s.queue s.running).2.eraseIdx
                  (p % (fillPool n s.queue s.running).2.length) ++
                (s.done ++ [(fillPool n s.queue s.running).2.getD
                  (p % (fillPool n s.queue s.running).2.length) 0])).Perm
                ((fillPool n s.queue s.running).1 ++
                 (fillPool n s.queue s.running).2 ++ s.done) := by
              rw [List.append_assoc, List.append_assoc]
              apply List.Perm.append_left
              -- erase ++ (done ++ [t]) ~ fill2 ++ done
              refine List.Perm.trans ?_ (herase.symm.append_right s.done)
              -- erase ++ (done ++ [t]) ~ (t :: erase) ++ done
              rw [← List.append_assoc]
              have := List.perm_append_singleton
                ((fillPool n s.queue s.running).2.getD
                  (p % (fillPool n s.queue s.running).2.length) 0)
                ((fillPool n s.queue s.running).2.eraseIdx
                  (p % (fillPool n s.queue s.running).2.length) ++ s.done)
              -- this : (erase ++ done) ++ [t] ~ t :: (erase ++ done)
              refine List.Perm.trans ?_ (this.trans ?_)
              · rw [List.append_assoc]
              · simp
            refine hstep.trans ?_
            simpa [List.append_assoc] using hfill

/-- Completion: with a positive concurrency limit, a stop flag that never
reads `true`, and schedules at least as long as the number of outstanding
tasks, the worker-pool loop drains the queue and the pool completely. -/
theorem runConcurrent_complete (n : Nat) (hn : 1 ≤ n) :
    ∀ (k : Nat) (picks : List Nat) (s : CState),
      s.queue.length + s.running.length ≤ k → k ≤ picks.length →
      (runConcurrent n (List.replicate k false) picks s).1.queue = [] ∧
      (runConcurrent n (List.replicate k false) picks s).1.running = [] := by
  intro k
  induction k with
  | zero =>
    intro picks s htask _
    have hq : s.queue = [] := by
      cases hq : s.queue with
      | nil => rfl
      | cons x xs => rw [hq] at htask; simp at htask
    have hr : s.running = [] := by
      cases hr : s.running with
      | nil => rfl
      | cons x xs => rw [hr] at htask; simp at htask
    cases picks <;> simp [runConcurrent, hq, hr]
  | succ k ih =>
    intro picks s htask hpick
    cases picks with
    | nil => simp at hpick
    | cons p ps =>
      rw [List.replicate_succ]
      by_cases hfin : s.queue.isEmpty && s.running.isEmpty
      · have hq : s.queue = [] := by
          cases hq : s.queue with
          | nil => rfl
          | cons x xs => rw [hq] at hfin; simp at hfin
        have hr : s.running = [] := by
          cases hr : s.running with
          | nil => rfl
          | cons x xs => rw [hr] at hfin; simp at hfin
        simp [runConcurrent, hq, hr]
      · have hne : ¬(s.queue = [] ∧ s.running = []) := by
          intro ⟨h1, h2⟩
          rw [h1, h2] at hfin
          simp at hfin
        have hfne : (fillPool n s.queue s.running).2 ≠ [] :=
          fillPool_ne_nil n hn s.queue s.running hne
        have hlen : p % (fillPool n s.queue s.running).2.length <
            (fillPool n s.queue s.running).2.length := by
          apply Nat.mod_lt
          cases hf : (fillPool n s.queue s.running).2 with
          | nil => exact absurd hf hfne
          | cons x xs => simp
        have hsum := fillPool_len_sum n s.queue s.running
        have herase : ((fillPool n s.queue s.running).2.eraseIdx
            (p % (fillPool n s.queue s.running).2.length)).length =
            (fillPool n s.queue s.running).2.length - 1 := by
          rw [List.length_eraseIdx, if_pos hlen]
        have hrec := ih ps ⟨(fillPool n s.queue s.running).1,
          (fillPool n s.queue s.running).2.eraseIdx
            (p % (fillPool n s.queue s.running).2.length),
          s.done ++ [(fillPool n s.queue s.running).2.getD
            (p % (fillPool n s.queue s.running).2.length) 0]⟩
          (by
            simp only [herase]
            have hpos : 1 ≤ (fillPool n s.queue s.running).2.length := by
              cases hf : (fillPool n s.queue s.running).2 with
              | nil => exact absurd hf hfne
              | cons x xs => simp
            omega)
          (by simpa using hpick)
        have hfe : (fillPool n s.queue s.running).2.isEmpty = false := by
          cases hf : (fillPool n s.queue s.running).2 with
          | nil => exact absurd hf hfne
          | cons x xs => simp
        have hunfold : (runConcurrent n (false :: List.replicate k false) (p :: ps) s).1 =
            (runConcurrent n (List.replicate k false) ps
              ⟨(fillPool n s.queue s.running).1,
               (fillPool n s.queue s.running).2.eraseIdx
                 (p % (fillPool n s.queue s.running).2.length),
               s.done ++ [(fillPool n s.queue s.running).2.getD
                 (p % (fillPool n s.queue s.running).2.length) 0]⟩).1 := by
          simp only [runConcurrent, hfe, if_neg hfin]
          simp
        rw [hunfold]
        exact hrec

/-- C2: running the worker pool with concurrency limit `n ≥ 1` over a finite
queue, with the stop flag never set and enough completion events scheduled, at
no point puts more than `n` tasks in flight (every recorded intermediate state
respects the bound), and the loop ends only with the queue drained, the pool
empty, and every queued task completed. -/
theorem claimC2_bounded_pool_completes (n k : Nat) (queue picks : List Nat)
    (hn : 1 ≤ n) (hk : queue.length ≤ k) (hp : k ≤ picks.length) :
    (∀ s2 ∈ (runConcurrent n (List.replicate k false) picks ⟨queue, [], []⟩).2,
      s2.running.length ≤ n) ∧
    (runConcurrent n (List.replicate k false) picks ⟨queue, [], []⟩).1.queue = [] ∧
    (runConcurrent n (List.replicate k false) picks ⟨queue, [], []⟩).1.running = [] ∧
    (∀ t ∈ queue,
      t ∈ (runConcurrent n (List.replicate k false) picks ⟨queue, [], []⟩).1.done) := by
  have hbound := runConcurrent_trace_bound n (List.replicate k false) picks
    ⟨queue, [], []⟩ (by simp)
  have hcomp := runConcurrent_complete n hn k picks ⟨queue, [], []⟩
    (by simpa using hk) hp
  have hperm := runConcurrent_perm n (List.replicate k false) picks ⟨queue, [], []⟩
  refine ⟨hbound, hcomp.1, hcomp.2, ?_⟩
  intro t ht
  have hmem : t ∈ (runConcurrent n (List.replicate k false) picks ⟨queue, [], []⟩).1.queue ++
      (runConcurrent n (List.replicate k false) picks ⟨queue, [], []⟩).1.running ++
      (runConcurrent n (List.replicate k false) picks ⟨queue, [], []⟩).1.done := by
    rw [hperm.mem_iff]
    simp [ht]
  simpa [hcomp.1, hcomp.2] using hmem

/-- C2 witness: concurrency 2 over five queued tasks with five completion
events — the spec's own test scenario. -/
theorem claimC2_witness :
    1 ≤ 2 ∧
    ((∀ s2 ∈ (runConcurrent 2 (List.replicate 5 false) [0, 0, 0, 0, 0]
        ⟨[1, 2, 3, 4, 5], [], []⟩).2, s2.running.length ≤ 2) ∧
     (runConcurrent 2 (List.replicate 5 false) [0, 0, 0, 0, 0]
        ⟨[1, 2, 3, 4, 5], [], []⟩).1.queue = [] ∧
     (runConcurrent 2 (List.replicate 5 false) [0, 0, 0, 0, 0]
        ⟨[1, 2, 3, 4, 5], [], []⟩).1.running = [] ∧
     (∀ t ∈ [1, 2, 3, 4, 5],
        t ∈ (runConcurrent 2 (List.replicate 5 false) [0, 0, 0, 0, 0]
          ⟨[1, 2, 3, 4, 5], [], []⟩).1.done)) :=
  ⟨by decide,
   claimC2_bounded_pool_completes 2 5 [1, 2, 3, 4, 5] [0, 0, 0, 0, 0]
     (by decide) (by decide) (by decide)⟩
